import Mathlib

/-!
Shallow embedding of the database layer of the `species` toolkit
(`src/species/data/database.py` and `src/species/data/isochrones.py`).

Floating-point scalars are modelled as rationals (`Rat`); Python `NaN`
placeholders are modelled with an explicit `Option`/`PhotVal.nan` where a
claim is about them.  Python exceptions are modelled with `Except String`.
HDF5 attribute bags are partial maps from attribute names to attribute
values, and the hierarchical store is a pair of partial maps (groups and
datasets) keyed by segment paths.
-/

namespace Species

/-- Attribute values stored in an HDF5 attribute bag: strings, integers,
floats, or a pair of floats (the `ln_evidence` tuple). -/
inductive AttrVal where
  | str (s : String)
  | int (n : Int)
  | rat (q : Rat)
  | pair (a b : Rat)
deriving DecidableEq, Repr

/-- An HDF5 attribute bag: a string-keyed partial map. -/
def Attrs : Type := String → Option AttrVal

/-- `dset.attrs[k] = v`: overwrite one key of an attribute bag. -/
def attrsSet (a : Attrs) (k : String) (v : AttrVal) : Attrs :=
  fun q => if q = k then some v else a q

/-- A stored numpy array of one, two or three dimensions. -/
inductive NDData where
  | one (x : List Rat)
  | two (x : List (List Rat))
  | three (x : List (List (List Rat)))
deriving DecidableEq, Repr

/-- Result of a Python call: a value or a raised exception. -/
abbrev PyResult (α : Type) := Except String α

/-- `np.argmax` accumulator carrying the best (index, value) seen so far;
`i` is the absolute index of the head of the remaining list.  The best
entry is replaced only on a strictly larger value, so the first index
attaining the maximum wins, as in numpy. -/
def argmaxGo : List Rat → Nat → Nat × Rat → Nat × Rat
  | [], _, best => best
  | x :: xs, i, (bi, bv) =>
    if bv < x then argmaxGo xs (i + 1) (i, x) else argmaxGo xs (i + 1) (bi, bv)

/-- `np.argmax` over a 1-D array: first index of the maximum value;
`none` models the `ValueError` numpy raises on an empty array. -/
def argmax : List Rat → Option Nat
  | [] => none
  | x :: xs => some (argmaxGo xs 1 (0, x)).1

/-- A stored posterior result (`results/fit/tag`): the `samples` dataset,
the `ln_prob` dataset, and the attribute bag of the `samples` dataset.
The writers (`add_samples`, `add_retrieval`) pair 2-D samples with a 1-D
log-probability array and 3-D samples with a 2-D one. -/
structure FitResult where
  samples : NDData
  lnprob : NDData
  attrs : Attrs

/-- `n_param` lookup of the accessors (database.py lines 1378-1381):
the `n_param` attribute, falling back to `nparam`; when neither exists
the Python variable is unbound and its first use raises `NameError`. -/
def getNParam (a : Attrs) : PyResult Int :=
  match a "n_param" with
  | some (AttrVal.int n) => Except.ok n
  | some _ => Except.error "TypeError: n_param"
  | none =>
    match a "nparam" with
    | some (AttrVal.int n) => Except.ok n
    | some _ => Except.error "TypeError: nparam"
    | none => Except.error "NameError: n_param"

/-- Splits a flat list into consecutive chunks of `p` elements; the fuel
argument is the length of the list. -/
def chunkGo : Nat → Nat → List Rat → List (List Rat)
  | 0, _, _ => []
  | _ + 1, _, [] => []
  | fuel + 1, p, x :: l => (x :: l).take p :: chunkGo fuel p ((x :: l).drop p)

/-- `np.reshape(flat, (-1, p))` on the row-major flattening of an array:
rows of `p` scalars; numpy raises `ValueError` when `p` does not divide
the total size (and cannot infer the `-1` when `p = 0`). -/
def reshapeRows (p : Nat) (flat : List Rat) : PyResult (List (List Rat)) :=
  if p = 0 then Except.error "ValueError: reshape"
  else if flat.length % p = 0 then Except.ok (chunkGo flat.length p flat)
  else Except.error "ValueError: reshape"

/-- `np.median` of a 1-D array: midpoint of the sorted values, averaging
the two central ones for an even length; `none` models the `NaN` that
numpy returns (with a warning) on an empty slice. -/
def npMedian (l : List Rat) : Option Rat :=
  let s := l.mergeSort (fun a b => decide (a ≤ b))
  if l.length = 0 then none
  else if l.length % 2 = 1 then some (s.getD (l.length / 2) 0)
  else some ((s.getD (l.length / 2 - 1) 0 + s.getD (l.length / 2) 0) / 2)

/-- The dict-building loop of `get_probable_sample` (database.py lines
1401-1405): for `count` remaining indices starting at `i`, pairs the
`parameter{i}` attribute with entry `i` of the maximum-probability row.
A missing attribute raises `KeyError`; numpy raises `IndexError` when the
row is shorter than `n_param`. -/
def paramDictGo (a : Attrs) (row : List Rat) : Nat → Nat → PyResult (List (String × Rat))
  | 0, _ => Except.ok []
  | count + 1, i =>
    match a ("parameter" ++ toString i) with
    | some (AttrVal.str name) =>
      match row.get? i with
      | some v =>
        match paramDictGo a row count (i + 1) with
        | Except.ok rest => Except.ok ((name, v) :: rest)
        | Except.error e => Except.error e
      | none => Except.error "IndexError"
    | some _ => Except.error "TypeError: parameter"
    | none => Except.error "KeyError: parameter"

/-- `if key in dset.attrs: result[key] = dset.attrs[key]` for the
float-valued optional attributes `distance` and `pt_smooth`. -/
def appendOptAttr (a : Attrs) (key : String) (m : List (String × Rat)) :
    PyResult (List (String × Rat)) :=
  match a key with
  | none => Except.ok m
  | some (AttrVal.rat q) => Except.ok (m ++ [(key, q)])
  | some _ => Except.error "TypeError: attr"

/-- Same optional-attribute append for the median dict, whose values are
`Option Rat` (`none` standing for `NaN`). -/
def appendOptAttrM (a : Attrs) (key : String) (m : List (String × Option Rat)) :
    PyResult (List (String × Option Rat)) :=
  match a key with
  | none => Except.ok m
  | some (AttrVal.rat q) => Except.ok (m ++ [(key, some q)])
  | some _ => Except.error "TypeError: attr"

/-- Burn-in handling shared by the posterior accessors (database.py lines
1383-1392): for 3-D samples the burn-in is validated against and removed
from the FIRST axis (`samples.shape[0]`, even though the error message
reports `samples.shape[1]` as the number of steps), the remainder is
reshaped to `(-1, n_param)` rows and the 2-D log-probability array is
flattened the same way; 2-D samples are passed through untouched together
with their 1-D log-probability array.  A 1-D log-probability array next to
3-D samples raises `IndexError` (`ln_prob[burnin:, :]` has too many
indices); the remaining layout combinations are not produced by any writer
in the repository and are mapped to an error. -/
def flattenData (samples : NDData) (lnprob : NDData) (b : Nat) (p : Nat) :
    PyResult (List (List Rat) × List Rat) :=
  match samples with
  | NDData.three s3 =>
    if b > s3.length then Except.error "ValueError: burnin"
    else
      match lnprob with
      | NDData.two l2 =>
        match reshapeRows p ((s3.drop b).flatten.flatten) with
        | Except.ok rows => Except.ok (rows, (l2.drop b).flatten)
        | Except.error e => Except.error e
      | NDData.one _ => Except.error "IndexError: too many indices"
      | NDData.three _ => Except.error "unmodelled: 3-D ln_prob"
  | NDData.two s2 =>
    match lnprob with
    | NDData.one l1 => Except.ok (s2, l1)
    | _ => Except.error "unmodelled: ln_prob shape"
  | NDData.one _ => Except.error "unmodelled: 1-D samples"

/-- `Database.get_probable_sample` (database.py lines 1349-1415): reads
`n_param`, trims/flattens 3-D chains (the `burnin` argument defaults to 0
and is never consulted for 2-D samples), locates the global argmax of the
stored log-probabilities, and maps each `parameter{i}` name to entry `i`
of that sample, appending the optional `distance` and `pt_smooth`
attributes. -/
def get_probable_sample (d : FitResult) (burnin : Option Nat) :
    PyResult (List (String × Rat)) :=
  match getNParam d.attrs with
  | Except.error e => Except.error e
  | Except.ok np0 =>
    if np0 < 0 then Except.error "ValueError: negative n_param"
    else
      match flattenData d.samples d.lnprob (burnin.getD 0) np0.toNat with
      | Except.error e => Except.error e
      | Except.ok (samples, lnprob) =>
        match argmax lnprob with
        | none => Except.error "ValueError: argmax of an empty sequence"
        | some idx =>
          match samples.get? idx with
          | none => Except.error "IndexError"
          | some row =>
            match paramDictGo d.attrs row np0.toNat 0 with
            | Except.error e => Except.error e
            | Except.ok base =>
              match appendOptAttr d.attrs "distance" base with
              | Except.error e => Except.error e
              | Except.ok base2 => appendOptAttr d.attrs "pt_smooth" base2

/-- The dict-building loop of `get_median_sample` (database.py lines
1464-1467): pairs each `parameter{i}` attribute with the median of sample
column `i`.  Rows are rectangular by array construction, so the column is
read with a defaulted index. -/
def medianDictGo (a : Attrs) (samples : List (List Rat)) :
    Nat → Nat → PyResult (List (String × Option Rat))
  | 0, _ => Except.ok []
  | count + 1, i =>
    match a ("parameter" ++ toString i) with
    | some (AttrVal.str name) =>
      match medianDictGo a samples count (i + 1) with
      | Except.ok rest =>
        Except.ok ((name, npMedian (samples.map (fun r => r.getD i 0))) :: rest)
      | Except.error e => Except.error e
    | some _ => Except.error "TypeError: parameter"
    | none => Except.error "KeyError: parameter"

/-- `Database.get_median_sample` (database.py lines 1417-1475): same
burn-in handling as `get_probable_sample` (the log-probability dataset is
never read), then the per-parameter column medians, with the optional
`distance` and `pt_smooth` attributes appended. -/
def get_median_sample (d : FitResult) (burnin : Option Nat) :
    PyResult (List (String × Option Rat)) :=
  match getNParam d.attrs with
  | Except.error e => Except.error e
  | Except.ok np0 =>
    if np0 < 0 then Except.error "ValueError: negative n_param"
    else
      match d.samples with
      | NDData.three s3 =>
        if burnin.getD 0 > s3.length then Except.error "ValueError: burnin"
        else
          match reshapeRows np0.toNat ((s3.drop (burnin.getD 0)).flatten.flatten) with
          | Except.error e => Except.error e
          | Except.ok rows =>
            match medianDictGo d.attrs rows np0.toNat 0 with
            | Except.error e => Except.error e
            | Except.ok base =>
              match appendOptAttrM d.attrs "distance" base with
              | Except.error e => Except.error e
              | Except.ok base2 => appendOptAttrM d.attrs "pt_smooth" base2
      | NDData.two s2 =>
        match medianDictGo d.attrs s2 np0.toNat 0 with
        | Except.error e => Except.error e
        | Except.ok base =>
          match appendOptAttrM d.attrs "distance" base with
          | Except.error e => Except.error e
          | Except.ok base2 => appendOptAttrM d.attrs "pt_smooth" base2
      | NDData.one _ => Except.error "unmodelled: 1-D samples"

/-- A stored HDF5 dataset: array payload plus attribute bag. -/
structure HDataset where
  data : NDData
  attrs : Attrs

/-- The derived-column append of `Database.add_retrieval` (database.py
lines 2511-2528, 2577-2594 and 2617-2634, identical for the condensate
mass fraction, quench pressure and effective temperature passes): the
per-sample derived column is appended with `np.append(..., axis=1)`
(which requires one value per sample row), the dataset is deleted and
recreated with the widened array, every prior attribute is copied onto
the new dataset, and then `n_param` is overwritten with its successor and
`parameter{n_param-1}` is set to the new column's name. -/
def append_param_column (d : HDataset) (col : List Rat) (pname : String) :
    PyResult HDataset :=
  match d.data with
  | NDData.two rows =>
    if col.length ≠ rows.length then Except.error "ValueError: append"
    else
      match d.attrs "n_param" with
      | some (AttrVal.int n) =>
        Except.ok
          { data := NDData.two (List.zipWith (fun row v => row ++ [v]) rows col),
            attrs := attrsSet (attrsSet d.attrs "n_param" (AttrVal.int (n + 1)))
              ("parameter" ++ toString n) (AttrVal.str pname) }
      | some _ => Except.error "TypeError: n_param"
      | none => Except.error "KeyError: n_param"
  | _ => Except.error "unmodelled: non-2-D samples"

/-- A hierarchical-store path, as `/`-separated segments. -/
abbrev H5Path := List String

/-- `underPath g p` holds when `p` lies strictly below the node `g`
(deleting the node at `g` also removes every such `p`). -/
def underPath : H5Path → H5Path → Bool
  | [], [] => false
  | [], _ :: _ => true
  | _ :: _, [] => false
  | a :: as, b :: bs => a == b && underPath as bs

/-- The hierarchical store: which groups exist, and the dataset stored at
each path. -/
structure H5Store where
  groups : H5Path → Bool
  dsets : H5Path → Option HDataset

/-- Deletes the node at `g` together with its subtree, as `del h5_file[g]`
does. -/
def storeDel (s : H5Store) (g : H5Path) : H5Store :=
  { groups := fun q => if q = g ∨ underPath g q then false else s.groups q,
    dsets := fun q => if q = g ∨ underPath g q then none else s.dsets q }

/-- Marks a group path as existing (`create_group`, only ever called after
an `in h5_file` check, so it never overwrites). -/
def storeAddGroup (s : H5Store) (g : H5Path) : H5Store :=
  { groups := fun q => if q = g then true else s.groups q, dsets := s.dsets }

/-- `create_dataset`: writes a dataset at a path. -/
def storeAddDset (s : H5Store) (g : H5Path) (d : HDataset) : H5Store :=
  { groups := s.groups, dsets := fun q => if q = g then some d else s.dsets q }

/-- The non-monotonic wavelength collapse of `Database.add_filter`
(database.py lines 286-290): walk the remaining (wavelength, transmission)
pairs and keep a pair only when its wavelength strictly exceeds the last
kept wavelength. -/
def collapseGo : List (Rat × Rat) → Rat → List (Rat × Rat)
  | [], _ => []
  | (w, t) :: rest, last => if last < w then (w, t) :: collapseGo rest w else collapseGo rest last

/-- The stored filter profile of `Database.add_filter` (database.py lines
282-293): the first row is always kept, later rows only on strictly
increasing wavelength.  The two inputs are the two columns of one
`np.loadtxt` array, hence of equal length; an empty array makes
`wavelength[0]` raise `IndexError`. -/
def add_filter_profile (wavel transm : List Rat) : PyResult (List Rat × List Rat) :=
  match wavel, transm with
  | w :: ws, t :: ts =>
    let kept := (w, t) :: collapseGo (ws.zip ts) w
    Except.ok (kept.map Prod.fst, kept.map Prod.snd)
  | _, _ => Except.error "IndexError"

/-- `Database.add_filter` on the store (database.py lines 259-297, local
`filename` branch): the dataset at `filters/{filter_name}` is deleted if
present, the parent groups are created on demand, and the collapsed
two-column profile is written with the `det_type` attribute.  When the
profile is empty the call raises after the deletion and group creation,
leaving that partial state. -/
def add_filter_store (filter_name : String) (wavel transm : List Rat)
    (det : String) (s : H5Store) : H5Store :=
  let segs := filter_name.splitOn "/"
  let fpath : H5Path := "filters" :: segs
  let split0 := segs.headD ""
  let s1 := storeDel s fpath
  let s2 := storeAddGroup (storeAddGroup s1 ["filters"]) ["filters", split0]
  match add_filter_profile wavel transm with
  | Except.ok (wl, tr) =>
    storeAddDset s2 fpath
      { data := NDData.two (List.zipWith (fun a b => [a, b]) wl tr),
        attrs := fun k => if k = "det_type" then some (AttrVal.str det) else none }
  | Except.error _ => s2

/-- The `parameter{i}`/`scaling{i}` attribute loop of
`Database.add_samples` (database.py lines 1322-1331), followed by the
`n_scaling` attribute. -/
def paramScalingGo (spec_labels : List String) :
    List String → Nat → Nat → Attrs → Attrs
  | [], _, count, a => attrsSet a "n_scaling" (AttrVal.int (count : Int))
  | item :: rest, i, count, a =>
    let a1 := attrsSet a ("parameter" ++ toString i) (AttrVal.str item)
    if item ∈ spec_labels then
      paramScalingGo spec_labels rest (i + 1) (count + 1)
        (attrsSet a1 ("scaling" ++ toString count) (AttrVal.str item))
    else
      paramScalingGo spec_labels rest (i + 1) count a1

/-- The `autocorrelation{i}` attribute loop of `Database.add_samples`
(database.py lines 1343-1345). -/
def autocorrGo : List Rat → Nat → Attrs → Attrs
  | [], _, a => a
  | q :: rest, i, a =>
    autocorrGo rest (i + 1) (attrsSet a ("autocorrelation" ++ toString i) (AttrVal.rat q))

/-- The attribute bag written by `Database.add_samples` (database.py lines
1307-1345).  `int_auto` is the integrated autocorrelation time computed by
the external `emcee` collaborator; `none` models its `AutocorrError`,
which is caught and logged. -/
def add_samples_attrs (spectrum : String × String) (modelpar : List String)
    (sampler : String) (mean_accept : Option Rat) (distance : Option Rat)
    (ln_evidence : Option (Rat × Rat)) (spec_labels : List String)
    (int_auto : Option (List Rat)) : Attrs :=
  let a1 := attrsSet (fun _ => none) "type" (AttrVal.str spectrum.1)
  let a2 := attrsSet a1 "spectrum" (AttrVal.str spectrum.2)
  let a3 := attrsSet a2 "n_param" (AttrVal.int (modelpar.length : Int))
  let a4 := attrsSet a3 "sampler" (AttrVal.str sampler)
  let a5 := match mean_accept with
    | some q => attrsSet a4 "mean_accept" (AttrVal.rat q)
    | none => a4
  let a6 := match distance with
    | some q => attrsSet a5 "distance" (AttrVal.rat q)
    | none => a5
  let a7 := match ln_evidence with
    | some p => attrsSet a6 "ln_evidence" (AttrVal.pair p.1 p.2)
    | none => a6
  let a8 := paramScalingGo spec_labels modelpar 0 0 a7
  match int_auto with
  | some l => autocorrGo l 0 a8
  | none => a8

/-- `Database.add_samples` on the store (database.py lines 1245-1347):
the parent groups are created on demand, any prior `results/fit/{tag}`
subtree is deleted, and the `samples` and `ln_prob` datasets are written,
with the attribute bag on `samples`. -/
def add_samples_store (sampler : String) (samples : NDData) (ln_prob : List Rat)
    (ln_evidence : Option (Rat × Rat)) (mean_accept : Option Rat)
    (spectrum : String × String) (tag : String) (modelpar : List String)
    (distance : Option Rat) (spec_labels : Option (List String))
    (int_auto : Option (List Rat)) (s : H5Store) : H5Store :=
  let gpath : H5Path := ["results", "fit", tag]
  let s1 := storeAddGroup (storeAddGroup s ["results"]) ["results", "fit"]
  let s2 := storeDel s1 gpath
  let sampAttrs := add_samples_attrs spectrum modelpar sampler mean_accept
    distance ln_evidence (spec_labels.getD []) int_auto
  let s3 := storeAddDset s2 (gpath ++ ["samples"]) { data := samples, attrs := sampAttrs }
  storeAddDset s3 (gpath ++ ["ln_prob"]) { data := NDData.one ln_prob, attrs := fun _ => none }

/-- `np.diag` of a square 2-D array. -/
def np_diag (data : List (List Rat)) : List Rat :=
  (List.range data.length).map (fun i => (data.getD i []).getD i 0)

/-- Modelled from the spec: `species.util.data_util.correlation_to_covariance`
is not under `src/` (only its caller in `Database.add_object` is).  Per the
spec, a correlation matrix is converted into a covariance matrix "using the
paired flux errors", i.e. entry `(i, j)` is scaled by the errors of rows
`i` and `j`. -/
def correlation_to_covariance (cor : List (List Rat)) (err : List Rat) :
    List (List Rat) :=
  (List.range cor.length).map (fun i =>
    (List.range ((cor.getD i []).length)).map (fun j =>
      (cor.getD i []).getD j 0 * err.getD i 0 * err.getD j 0))

/-- The covariance branch of `Database.add_object` (database.py lines
977-988, identically lines 947-957 for the FITS branch): when every
diagonal entry of the supplied matrix equals one it is treated as a
correlation matrix and converted with the spectrum's flux-error column;
otherwise it is stored as given. -/
def add_object_covariance (data : List (List Rat)) (spec_err : List Rat) :
    List (List Rat) :=
  if (np_diag data).all (fun q => q == 1) then correlation_to_covariance data spec_err
  else data

/-- A stored photometric scalar: a float or the `NaN` placeholder. -/
inductive PhotVal where
  | nan
  | val (q : Rat)
deriving DecidableEq, Repr

/-- The single-magnitude branch of the `app_mag` loops of
`Database.add_object` (database.py lines 688-706 and 744-771), with no
dereddening requested (so `dered_phot` is `1` and the magnitude shift
`-2.5*log10(1)` vanishes).  `mag_to_flux` is the external
`SyntheticPhotometry.magnitude_to_flux` collaborator; `none` models the
`KeyError` it raises for a filter that cannot be resolved, which is caught:
one warning naming the filter is recorded and `NaN` is used for the flux
and its error.  The second component lists, per filter, the stored
4-entry dataset `[magnitude, magnitude error, flux, flux error]`
(each stored with an `n_phot = 1` attribute). -/
def add_object_phot (mag_to_flux : String → Rat × Rat → Option (Rat × Rat))
    (app_mag : List (String × Rat × Rat)) :
    List String × List (String × List PhotVal) :=
  let warns := (app_mag.filter (fun it => (mag_to_flux it.1 it.2).isNone)).map
    (fun it => it.1)
  let stored := app_mag.map (fun it =>
    match mag_to_flux it.1 it.2 with
    | some fe =>
      (it.1, [PhotVal.val it.2.1, PhotVal.val it.2.2,
        PhotVal.val (fe.1 * 1), PhotVal.val fe.2])
    | none =>
      (it.1, [PhotVal.val it.2.1, PhotVal.val it.2.2, PhotVal.nan, PhotVal.nan]))
  (warns, stored)

/-- `temp[:, j] = col` on a matrix held as its list of columns; numpy
raises `IndexError` when the column index is out of range. -/
def writeCol (temp : List (List Rat)) (j : Nat) (col : List Rat) :
    PyResult (List (List Rat)) :=
  if j < temp.length then Except.ok (temp.set j col) else Except.error "IndexError"

/-- The `free`/`monotonic` loop of `Database.get_pt_profiles` (database.py
lines 2065-2099), with `random=None` so every stored sample is selected.
`interp` stands for the external `retrieval_util.pt_spline_interp`
collaborator, partially applied to the fixed `knot_press` and `press`
grids, so it maps the 15 knot temperatures and the smoothing parameter to
a 180-point temperature column.  The temperature matrix
`np.zeros((press.shape[0], n_profiles))` is held as its `n_profiles`
columns of 180 zeros.  Two slips of the source are reproduced verbatim:
the knot loop `for j in range(15)` appends `item[param_index[f't{i}']]`,
repeating the single parameter named after the SAMPLE index `i` fifteen
times, and the result is assigned to `temp[:, j]`, where `j` is the value
`14` left over from the knot loop rather than the sample index `i`. -/
def ptFreeGo (interp : List Rat → Rat → List Rat)
    (param_index : String → Option Nat) :
    List (List Rat) → Nat → List (List Rat) → PyResult (List (List Rat))
  | [], _, temp => Except.ok temp
  | item :: rest, i, temp =>
    match (match param_index "pt_smooth" with
      | some k =>
        match item.get? k with
        | some v => Except.ok v
        | none => Except.error "IndexError"
      | none => Except.ok (0 : Rat) : PyResult Rat) with
    | Except.error e => Except.error e
    | Except.ok sm =>
      match param_index ("t" ++ toString i) with
      | none => Except.error "KeyError"
      | some k =>
        match item.get? k with
        | none => Except.error "IndexError"
        | some tv =>
          let knot_temp := List.replicate 15 tv
          match writeCol temp 14 (interp knot_temp sm) with
          | Except.error e => Except.error e
          | Except.ok temp2 => ptFreeGo interp param_index rest (i + 1) temp2

/-- `Database.get_pt_profiles` temperature reconstruction for the `free`
and `monotonic` profile kinds (database.py lines 2044-2099, `random=None`). -/
def get_pt_profiles_free (interp : List Rat → Rat → List Rat)
    (param_index : String → Option Nat) (samples : List (List Rat)) :
    PyResult (List (List Rat)) :=
  ptFreeGo interp param_index samples 0
    (List.replicate samples.length (List.replicate 180 (0 : Rat)))

/-- The unit scalings of `add_manual` (isochrones.py lines 88-89): ages
from Gyr to Myr and masses from solar to Jupiter masses, `c` standing for
the physical ratio `M_SUN / M_JUP` taken from `species.core.constants`.
Rows are rectangular by array construction. -/
def manualScale (c : Rat) : List Rat → List Rat
  | a :: m :: rest => (1000 * a) :: (c * m) :: rest
  | other => other

/-- `isochrones[np.argsort(isochrones[:, 0]), :]` (isochrones.py lines
91-92 and 161-162): the rows reordered into non-decreasing age (column 0)
order. -/
def sortByAge (rows : List (List Rat)) : List (List Rat) :=
  rows.mergeSort (fun r s => decide (r.getD 0 0 ≤ s.getD 0 0))

/-- The `evolution` array stored by `add_manual` (isochrones.py lines
86-113): unit scaling, age sort, then the first eight columns. -/
def add_manual_evolution (c : Rat) (rows : List (List Rat)) : List (List Rat) :=
  (sortByAge (rows.map (manualScale c))).map (fun r => r.take 8)

/-- The `evolution` array stored by `add_sonora` (isochrones.py lines
246-268): per parsed row, age scaled Gyr to Myr, mass scaled solar to
Jupiter masses (`c = M_SUN / M_JUP`), columns reordered to
(age, mass, Teff, log L, log g) — and NO reordering of the rows.
`add_saumon` (lines 493-513) builds its rows identically. -/
def add_sonora_evolution (c : Rat) (params : List (List Rat)) : List (List Rat) :=
  params.map (fun p =>
    [1000 * p.getD 0 0, c * p.getD 1 0, p.getD 3 0, p.getD 2 0, p.getD 4 0])

/-- The `evolution` array stored by `add_baraffe2015` (isochrones.py lines
558-571): per input row (already column-extracted), ages converted from
`log t(yr)` via `1e-6 * 10**log_age` (`pow10` standing for that
transcendental conversion) and masses scaled by `c = M_SUN / M_JUP`;
the rows are stacked in input order with NO sorting. -/
def add_baraffe2015_evolution (c : Rat) (pow10 : Rat → Rat)
    (mass log_age teff log_lum log_g : List Rat) : List (List Rat) :=
  (List.range mass.length).map (fun i =>
    [pow10 (log_age.getD i 0) / 1000000, c * mass.getD i 0, teff.getD i 0,
      log_lum.getD i 0, log_g.getD i 0])

instance exceptDecEq {ε α : Type} [DecidableEq ε] [DecidableEq α] :
    DecidableEq (Except ε α) := fun x y =>
  match x, y with
  | Except.ok a, Except.ok b =>
    if h : a = b then isTrue (by rw [h])
    else isFalse (fun he => h (Except.ok.inj he))
  | Except.error a, Except.error b =>
    if h : a = b then isTrue (by rw [h])
    else isFalse (fun he => h (Except.error.inj he))
  | Except.ok _, Except.error _ => isFalse (fun he => Except.noConfusion he)
  | Except.error _, Except.ok _ => isFalse (fun he => Except.noConfusion he)

/-- Non-decreasing age (column 0) along the rows of an evolution array. -/
def AgeSorted (rows : List (List Rat)) : Prop :=
  rows.Chain' (fun r s => r.getD 0 0 ≤ s.getD 0 0)

instance : DecidablePred AgeSorted := fun rows => by
  unfold AgeSorted
  infer_instance

theorem argmaxGo_invariant (rest : List Rat) :
    ∀ (pre : List Rat) (b : Nat × Rat),
      b.1 < pre.length →
      pre.getD b.1 0 = b.2 →
      (∀ k, k < pre.length → pre.getD k 0 ≤ b.2) →
      (∀ k, k < b.1 → pre.getD k 0 < b.2) →
      (argmaxGo rest pre.length b).1 < (pre ++ rest).length ∧
      (pre ++ rest).getD (argmaxGo rest pre.length b).1 0 = (argmaxGo rest pre.length b).2 ∧
      (∀ k, k < (pre ++ rest).length →
        (pre ++ rest).getD k 0 ≤ (argmaxGo rest pre.length b).2) ∧
      (∀ k, k < (argmaxGo rest pre.length b).1 →
        (pre ++ rest).getD k 0 < (argmaxGo rest pre.length b).2) := by
  induction rest with
  | nil =>
    intro pre b hlt hval hub hfirst
    simp only [argmaxGo, List.append_nil]
    exact ⟨hlt, hval, hub, hfirst⟩
  | cons x xs ih =>
    intro pre b hlt hval hub hfirst
    have hpre : ∀ k, k < pre.length → (pre ++ [x]).getD k 0 = pre.getD k 0 := by
      intro k hk
      simp [List.getD, List.getElem?_append_left hk]
    have hx : (pre ++ [x]).getD pre.length 0 = x := by
      simp [List.getD]
    have hassoc : pre ++ x :: xs = (pre ++ [x]) ++ xs := by simp
    by_cases hcase : b.2 < x
    · have hstep : argmaxGo (x :: xs) pre.length b =
          argmaxGo xs (pre.length + 1) (pre.length, x) := by
        obtain ⟨bi, bv⟩ := b
        simp only [argmaxGo]
        simp_all
      rw [hassoc, hstep]
      have hlen : (pre ++ [x]).length = pre.length + 1 := by simp
      have h1 : (pre.length : Nat) < (pre ++ [x]).length := by simp
      have h2 : (pre ++ [x]).getD pre.length 0 = x := hx
      have h3 : ∀ k, k < (pre ++ [x]).length → (pre ++ [x]).getD k 0 ≤ x := by
        intro k hk
        rcases Nat.lt_succ_iff_lt_or_eq.mp (hlen ▸ hk) with hk2 | hk2
        · rw [hpre k hk2]
          exact le_of_lt (lt_of_le_of_lt (hub k hk2) hcase)
        · rw [hk2, hx]
      have h4 : ∀ k, k < pre.length → (pre ++ [x]).getD k 0 < x := by
        intro k hk
        rw [hpre k hk]
        exact lt_of_le_of_lt (hub k hk) hcase
      have := ih (pre ++ [x]) (pre.length, x) h1 h2 h3 h4
      rwa [hlen] at this
    · have hstep : argmaxGo (x :: xs) pre.length b =
          argmaxGo xs (pre.length + 1) b := by
        obtain ⟨bi, bv⟩ := b
        simp only [argmaxGo]
        simp_all
      rw [hassoc, hstep]
      have hlen : (pre ++ [x]).length = pre.length + 1 := by simp
      have h1 : b.1 < (pre ++ [x]).length := by
        rw [hlen]; exact Nat.lt_succ_of_lt hlt
      have h2 : (pre ++ [x]).getD b.1 0 = b.2 := by
        rw [hpre b.1 hlt]; exact hval
      have h3 : ∀ k, k < (pre ++ [x]).length → (pre ++ [x]).getD k 0 ≤ b.2 := by
        intro k hk
        rcases Nat.lt_succ_iff_lt_or_eq.mp (hlen ▸ hk) with hk2 | hk2
        · rw [hpre k hk2]; exact hub k hk2
        · rw [hk2, hx]; exact le_of_not_lt hcase
      have h4 : ∀ k, k < b.1 → (pre ++ [x]).getD k 0 < b.2 := by
        intro k hk
        rw [hpre k (lt_trans hk hlt)]
        exact hfirst k hk
      have := ih (pre ++ [x]) b h1 h2 h3 h4
      rwa [hlen] at this

theorem argmax_spec (l : List Rat) (j : Nat) (hj : argmax l = some j) :
    j < l.length ∧ (∀ k, k < l.length → l.getD k 0 ≤ l.getD j 0) ∧
    (∀ k, k < j → l.getD k 0 < l.getD j 0) := by
  match l with
  | [] => simp [argmax] at hj
  | x :: xs =>
    have h := argmaxGo_invariant xs [x] (0, x) (by simp) (by simp)
      (by
        intro k hk
        have hk0 : k = 0 := by simpa using hk
        subst hk0
        simp)
      (by intro k hk; omega)
    simp only [List.length_cons, List.length_nil, List.singleton_append,
      Nat.zero_add] at h
    have hj2 : j = (argmaxGo xs 1 (0, x)).1 := by
      simpa [argmax] using hj.symm
    obtain ⟨h1, h2, h3, h4⟩ := h
    refine ⟨hj2 ▸ h1, ?_, ?_⟩
    · intro k hk
      rw [hj2, h2]
      exact h3 k hk
    · intro k hk
      rw [hj2, h2]
      exact h4 k (hj2 ▸ hk)

theorem zipWith_append_length (m : Nat) :
    ∀ (rows : List (List Rat)) (col : List Rat),
      (∀ row ∈ rows, row.length = m) →
      ∀ row2 ∈ List.zipWith (fun row v => row ++ [v]) rows col, row2.length = m + 1 := by
  intro rows
  induction rows with
  | nil =>
    intro col h row2 hmem
    simp at hmem
  | cons r rs ih =>
    intro col h row2 hmem
    cases col with
    | nil => simp at hmem
    | cons v vs =>
      simp only [List.zipWith_cons_cons, List.mem_cons] at hmem
      rcases hmem with h1 | h1
      · subst h1
        simp [h r (by simp)]
      · exact ih vs (fun row hr => h row (by simp [hr])) row2 h1

/-- C1: after each derived-column append of `add_retrieval`, the stored
`n_param` attribute equals the widened sample array's last dimension, the
new `parameter{n_param-1}` attribute names the appended column, and every
attribute that existed before the append — other than the incremented
`n_param` itself — is present with an unchanged value. -/
theorem add_retrieval_append_invariant
    (rows : List (List Rat)) (a : Attrs) (col : List Rat) (pname : String) (n : Int)
    (hn : a "n_param" = some (AttrVal.int n))
    (hpos : 0 ≤ n)
    (hlen : col.length = rows.length)
    (hdim : ∀ row ∈ rows, row.length = n.toNat)
    (hfresh : a ("parameter" ++ toString n) = none) :
    ∃ d2, append_param_column ⟨NDData.two rows, a⟩ col pname = Except.ok d2 ∧
      d2.attrs "n_param" = some (AttrVal.int (n + 1)) ∧
      (∃ rows2, d2.data = NDData.two rows2 ∧
        ∀ row2 ∈ rows2, row2.length = (n + 1).toNat) ∧
      d2.attrs ("parameter" ++ toString n) = some (AttrVal.str pname) ∧
      (∀ k v, a k = some v → k ≠ "n_param" → d2.attrs k = some v) := by
  have hne : ("parameter" ++ toString n) ≠ "n_param" := by
    intro he
    rw [he, hn] at hfresh
    exact Option.noConfusion hfresh
  refine ⟨{ data := NDData.two (List.zipWith (fun row v => row ++ [v]) rows col),
            attrs := attrsSet (attrsSet a "n_param" (AttrVal.int (n + 1)))
              ("parameter" ++ toString n) (AttrVal.str pname) }, ?_, ?_, ?_, ?_, ?_⟩
  · simp [append_param_column, hlen, hn]
  · show attrsSet (attrsSet a "n_param" (AttrVal.int (n + 1)))
        ("parameter" ++ toString n) (AttrVal.str pname) "n_param" = _
    simp [attrsSet, Ne.symm hne]
  · refine ⟨List.zipWith (fun row v => row ++ [v]) rows col, rfl, ?_⟩
    have : (n + 1).toNat = n.toNat + 1 := by omega
    rw [this]
    exact zipWith_append_length n.toNat rows col hdim
  · show attrsSet (attrsSet a "n_param" (AttrVal.int (n + 1)))
        ("parameter" ++ toString n) (AttrVal.str pname) ("parameter" ++ toString n) = _
    simp [attrsSet]
  · intro k v hk hkn
    show attrsSet (attrsSet a "n_param" (AttrVal.int (n + 1)))
        ("parameter" ++ toString n) (AttrVal.str pname) k = some v
    have hkp : k ≠ "parameter" ++ toString n := by
      intro he
      rw [he, hfresh] at hk
      exact Option.noConfusion hk
    simp [attrsSet, hkp, hkn, hk]

theorem add_retrieval_append_invariant_witness :
    ∃ d2, append_param_column
        ⟨NDData.two [[1, 2], [3, 4]],
          fun k => if k = "n_param" then some (AttrVal.int 2)
            else if k = "parameter0" then some (AttrVal.str "a")
            else if k = "parameter1" then some (AttrVal.str "b")
            else none⟩
        [5, 6] "teff" = Except.ok d2 ∧
      d2.attrs "n_param" = some (AttrVal.int (2 + 1)) ∧
      (∃ rows2, d2.data = NDData.two rows2 ∧
        ∀ row2 ∈ rows2, row2.length = ((2 : Int) + 1).toNat) ∧
      d2.attrs ("parameter" ++ toString (2 : Int)) = some (AttrVal.str "teff") ∧
      (∀ k v,
        (if k = "n_param" then some (AttrVal.int 2)
          else if k = "parameter0" then some (AttrVal.str "a")
          else if k = "parameter1" then some (AttrVal.str "b")
          else none) = some v → k ≠ "n_param" → d2.attrs k = some v) :=
  add_retrieval_append_invariant [[1, 2], [3, 4]]
    (fun k => if k = "n_param" then some (AttrVal.int 2)
      else if k = "parameter0" then some (AttrVal.str "a")
      else if k = "parameter1" then some (AttrVal.str "b")
      else none)
    [5, 6] "teff" 2 rfl (by decide) rfl (by decide) rfl

/-- C10: for a 2-D (nested-sampling) sample array, `get_probable_sample`
and `get_median_sample` never consult the `burnin` argument: any value,
however large, gives the same result as `burnin = None`. -/
theorem nested_sampling_burnin_ignored
    (s2 : List (List Rat)) (l : NDData) (a : Attrs) (b : Nat) :
    get_probable_sample ⟨NDData.two s2, l, a⟩ (some b) =
      get_probable_sample ⟨NDData.two s2, l, a⟩ none ∧
    get_median_sample ⟨NDData.two s2, l, a⟩ (some b) =
      get_median_sample ⟨NDData.two s2, l, a⟩ none :=
  ⟨rfl, rfl⟩

/-- C2 (evaluation at the failing input): for samples stored with shape
`(10 walkers, 50 steps, 3 params)` — the layout §3 of the spec declares —
both accessors do raise on `burnin = 60` (because 60 exceeds the WALKER
count 10), but `burnin = 10` removes all ten walkers instead of ten steps:
the flattened array has 0 rows, not `10*(50-10) = 400`, so
`get_probable_sample` fails on the argmax of an empty array and
`get_median_sample` returns `NaN` medians. -/
theorem burnin_trims_walker_axis :
    get_probable_sample
      ⟨NDData.three (List.replicate 10 (List.replicate 50 [0, 0, 0])),
        NDData.two (List.replicate 10 (List.replicate 50 0)),
        fun k => if k = "n_param" then some (AttrVal.int 3)
          else if k = "parameter0" then some (AttrVal.str "p0")
          else if k = "parameter1" then some (AttrVal.str "p1")
          else if k = "parameter2" then some (AttrVal.str "p2")
          else none⟩ (some 60) = Except.error "ValueError: burnin" ∧
    get_median_sample
      ⟨NDData.three (List.replicate 10 (List.replicate 50 [0, 0, 0])),
        NDData.two (List.replicate 10 (List.replicate 50 0)),
        fun k => if k = "n_param" then some (AttrVal.int 3)
          else if k = "parameter0" then some (AttrVal.str "p0")
          else if k = "parameter1" then some (AttrVal.str "p1")
          else if k = "parameter2" then some (AttrVal.str "p2")
          else none⟩ (some 60) = Except.error "ValueError: burnin" ∧
    get_probable_sample
      ⟨NDData.three (List.replicate 10 (List.replicate 50 [0, 0, 0])),
        NDData.two (List.replicate 10 (List.replicate 50 0)),
        fun k => if k = "n_param" then some (AttrVal.int 3)
          else if k = "parameter0" then some (AttrVal.str "p0")
          else if k = "parameter1" then some (AttrVal.str "p1")
          else if k = "parameter2" then some (AttrVal.str "p2")
          else none⟩ (some 10) =
      Except.error "ValueError: argmax of an empty sequence" ∧
    get_median_sample
      ⟨NDData.three (List.replicate 10 (List.replicate 50 [0, 0, 0])),
        NDData.two (List.replicate 10 (List.replicate 50 0)),
        fun k => if k = "n_param" then some (AttrVal.int 3)
          else if k = "parameter0" then some (AttrVal.str "p0")
          else if k = "parameter1" then some (AttrVal.str "p1")
          else if k = "parameter2" then some (AttrVal.str "p2")
          else none⟩ (some 10) =
      Except.ok [("p0", none), ("p1", none), ("p2", none)] := by
  refine ⟨?_, ?_, ?_, ?_⟩ <;> rfl

theorem paramDictGo_spec (a : Attrs) (row : List Rat) (names : List String) :
    ∀ (count i : Nat),
      (∀ t, t < count → a ("parameter" ++ toString (i + t)) =
        some (AttrVal.str (names.getD (i + t) ""))) →
      (∀ t, t < count → i + t < row.length) →
      paramDictGo a row count i =
        Except.ok ((List.range count).map
          (fun t => (names.getD (i + t) "", row.getD (i + t) 0))) := by
  intro count
  induction count with
  | zero =>
    intro i _ _
    simp [paramDictGo]
  | succ c ih =>
    intro i hattr hlt
    have h0 := hattr 0 (Nat.succ_pos c)
    have hl0 := hlt 0 (Nat.succ_pos c)
    simp only [Nat.add_zero] at h0 hl0
    have hget : row.get? i = some (row.getD i 0) := by
      rw [List.get?_eq_getElem?, List.getElem?_eq_getElem hl0]
      simp [List.getD_eq_getElem?_getD, List.getElem?_eq_getElem hl0]
    have ih2 := ih (i + 1)
      (fun t ht => by
        have := hattr (t + 1) (by omega)
        rwa [show i + (t + 1) = (i + 1) + t by omega] at this)
      (fun t ht => by
        have := hlt (t + 1) (by omega)
        omega)
    simp only [paramDictGo, h0, hget, ih2]
    congr 1
    rw [List.range_succ_eq_map, List.map_cons, List.map_map]
    rw [Nat.add_zero]
    congr 1
    apply List.map_congr_left
    intro t ht
    have he : i + 1 + t = i + (t + 1) := by omega
    simp [Function.comp, he, Nat.succ_eq_add_one]

/-- C3: for a stored 2-D Posterior Sample Set, `get_probable_sample`
returns the parameter-name-to-value mapping of exactly the sample row at
the global argmax (first index attaining the maximum) of the stored
log-probability array. -/
theorem get_probable_sample_returns_argmax
    (rows : List (List Rat)) (l : List Rat) (a : Attrs) (burnin : Option Nat)
    (names : List String) (p : Nat)
    (hn : a "n_param" = some (AttrVal.int (p : Int)))
    (hne : l ≠ [])
    (hlen : rows.length = l.length)
    (hrow : ∀ row ∈ rows, row.length = p)
    (hnames : ∀ i, i < p → a ("parameter" ++ toString i) =
      some (AttrVal.str (names.getD i "")))
    (hdist : a "distance" = none)
    (hsm : a "pt_smooth" = none) :
    ∃ j, j < l.length ∧
      (∀ k, k < l.length → l.getD k 0 ≤ l.getD j 0) ∧
      (∀ k, k < j → l.getD k 0 < l.getD j 0) ∧
      get_probable_sample ⟨NDData.two rows, NDData.one l, a⟩ burnin =
        Except.ok ((List.range p).map
          (fun i => (names.getD i "", (rows.getD j []).getD i 0))) := by
  have hax : ∃ j, argmax l = some j := by
    cases l with
    | nil => exact absurd rfl hne
    | cons x xs => exact ⟨_, rfl⟩
  obtain ⟨j, hj⟩ := hax
  obtain ⟨hjlt, hub, hfirst⟩ := argmax_spec l j hj
  refine ⟨j, hjlt, hub, hfirst, ?_⟩
  have hjr : j < rows.length := hlen ▸ hjlt
  have hgetj : rows.get? j = some (rows.getD j []) := by
    rw [List.get?_eq_getElem?, List.getElem?_eq_getElem hjr]
    simp [List.getD_eq_getElem?_getD, List.getElem?_eq_getElem hjr]
  have hmem : rows.getD j [] ∈ rows := by
    rw [List.getD_eq_getElem rows [] hjr]
    exact List.getElem_mem hjr
  have hrowlen : (rows.getD j []).length = p := hrow _ hmem
  have hpd := paramDictGo_spec a (rows.getD j []) names p 0
    (fun t ht => by simpa using hnames t ht)
    (fun t ht => by simp only [Nat.zero_add, hrowlen]; exact ht)
  simp only [Nat.zero_add] at hpd
  have hnonneg : ¬ ((p : Int) < 0) := by
    simp
  simp only [get_probable_sample, getNParam, hn, hnonneg, if_false, flattenData,
    Int.toNat_natCast, hj, hgetj, hpd, appendOptAttr, hdist, hsm]

theorem get_probable_sample_returns_argmax_witness :
    ∃ j, j < ([(-5 : Rat), -1]).length ∧
      (∀ k, k < ([(-5 : Rat), -1]).length →
        ([(-5 : Rat), -1]).getD k 0 ≤ ([(-5 : Rat), -1]).getD j 0) ∧
      (∀ k, k < j → ([(-5 : Rat), -1]).getD k 0 < ([(-5 : Rat), -1]).getD j 0) ∧
      get_probable_sample
        ⟨NDData.two [[1, 2], [3, 4]], NDData.one [-5, -1],
          fun k => if k = "n_param" then some (AttrVal.int 2)
            else if k = "parameter0" then some (AttrVal.str "alpha")
            else if k = "parameter1" then some (AttrVal.str "beta")
            else none⟩ none =
        Except.ok ((List.range 2).map
          (fun i => (["alpha", "beta"].getD i "",
            (([[1, 2], [3, 4]] : List (List Rat)).getD j []).getD i 0))) :=
  get_probable_sample_returns_argmax [[1, 2], [3, 4]] [-5, -1]
    (fun k => if k = "n_param" then some (AttrVal.int 2)
      else if k = "parameter0" then some (AttrVal.str "alpha")
      else if k = "parameter1" then some (AttrVal.str "beta")
      else none)
    none ["alpha", "beta"] 2 rfl (by decide) rfl (by decide) (by decide) rfl rfl

theorem collapseGo_fst_chain (pairs : List (Rat × Rat)) :
    ∀ last : Rat, ((collapseGo pairs last).map Prod.fst).Chain' (· < ·) ∧
      ∀ w ∈ (collapseGo pairs last).map Prod.fst, last < w := by
  induction pairs with
  | nil =>
    intro last
    simp [collapseGo]
  | cons p rest ih =>
    intro last
    obtain ⟨w, t⟩ := p
    by_cases h : last < w
    · have h2 := ih w
      simp only [collapseGo, if_pos h, List.map_cons]
      refine ⟨List.chain'_cons'.mpr ⟨?_, h2.1⟩, ?_⟩
      · intro y hy
        exact h2.2 y (List.mem_of_mem_head? hy)
      · intro y hy
        rcases List.mem_cons.mp hy with h3 | h3
        · rw [h3]; exact h
        · exact lt_trans h (h2.2 y h3)
    · simp only [collapseGo, if_neg h]
      exact ih last

/-- C4: `add_filter` collapses the non-monotonic input wavelengths
`[1.0, 1.5, 1.4, 2.0]` to `[1.0, 1.5, 2.0]` with the transmission values
paired to the kept rows carried through, and for every input the stored
wavelength column is strictly increasing. -/
theorem add_filter_collapse_monotonic :
    add_filter_profile [1, 3/2, 7/5, 2] [10, 20, 30, 40] =
      Except.ok ([1, 3/2, 2], [10, 20, 40]) ∧
    ∀ wavel transm res, add_filter_profile wavel transm = Except.ok res →
      res.1.Chain' (· < ·) := by
  constructor
  · simp only [add_filter_profile, List.zip_cons_cons, List.zip_nil_right]
    norm_num [collapseGo]
  · intro wavel transm res hres
    match wavel, transm with
    | [], _ => simp [add_filter_profile] at hres
    | w :: ws, [] => simp [add_filter_profile] at hres
    | w :: ws, t :: ts =>
      simp only [add_filter_profile, Except.ok.injEq] at hres
      have h := collapseGo_fst_chain (ws.zip ts) w
      have hres1 : res.1 = w :: (collapseGo (ws.zip ts) w).map Prod.fst := by
        rw [← hres]
        simp
      rw [hres1]
      refine List.chain'_cons'.mpr ⟨?_, h.1⟩
      intro y hy
      exact h.2 y (List.mem_of_mem_head? hy)

theorem add_filter_collapse_monotonic_witness :
    ([1, 3/2, 2] : List Rat).Chain' (· < ·) :=
  add_filter_collapse_monotonic.2 [1, 3/2, 7/5, 2] [10, 20, 30, 40]
    ([1, 3/2, 2], [10, 20, 40]) add_filter_collapse_monotonic.1

theorem store_eq (s t : H5Store) (hg : s.groups = t.groups)
    (hd : s.dsets = t.dsets) : s = t := by
  cases s
  cases t
  simp_all

/-- C5: the ingestion store operations cited by the claim (`add_filter`,
`add_samples`) delete the prior entity at the target path before the
rewrite, so running the same call twice with the same inputs leaves the
store exactly as one run does, and the entity written at the target path
does not depend on the prior store contents at all. -/
theorem ingestion_idempotent :
    (∀ name wavel transm det (s : H5Store),
      add_filter_store name wavel transm det
          (add_filter_store name wavel transm det s) =
        add_filter_store name wavel transm det s) ∧
    (∀ sampler samples lp le ma spec tag mp dist sl ia (s : H5Store),
      add_samples_store sampler samples lp le ma spec tag mp dist sl ia
          (add_samples_store sampler samples lp le ma spec tag mp dist sl ia s) =
        add_samples_store sampler samples lp le ma spec tag mp dist sl ia s) ∧
    (∀ name wavel transm det (s t : H5Store),
      (add_filter_store name wavel transm det s).dsets
          ("filters" :: name.splitOn "/") =
        (add_filter_store name wavel transm det t).dsets
          ("filters" :: name.splitOn "/")) ∧
    (∀ sampler samples lp le ma spec tag mp dist sl ia (s t : H5Store),
      (add_samples_store sampler samples lp le ma spec tag mp dist sl ia s).dsets
          (["results", "fit", tag] ++ ["samples"]) =
        (add_samples_store sampler samples lp le ma spec tag mp dist sl ia t).dsets
          (["results", "fit", tag] ++ ["samples"])) := by
  refine ⟨?_, ?_, ?_, ?_⟩
  · intro name wavel transm det s
    cases hp : add_filter_profile wavel transm with
    | ok pr =>
      obtain ⟨wl, tr⟩ := pr
      apply store_eq
      · funext g
        simp only [add_filter_store, hp, storeAddDset, storeAddGroup, storeDel]
        split_ifs <;> rfl
      · funext q
        simp only [add_filter_store, hp, storeAddDset, storeAddGroup, storeDel]
        split_ifs <;> rfl
    | error e =>
      apply store_eq
      · funext g
        simp only [add_filter_store, hp, storeAddDset, storeAddGroup, storeDel]
        split_ifs <;> rfl
      · funext q
        simp only [add_filter_store, hp, storeAddDset, storeAddGroup, storeDel]
        split_ifs <;> rfl
  · intro sampler samples lp le ma spec tag mp dist sl ia s
    apply store_eq
    · funext g
      simp only [add_samples_store, storeAddDset, storeAddGroup, storeDel]
      split_ifs <;> rfl
    · funext q
      simp only [add_samples_store, storeAddDset, storeAddGroup, storeDel]
      split_ifs <;> rfl
  · intro name wavel transm det s t
    cases hp : add_filter_profile wavel transm with
    | ok pr =>
      obtain ⟨wl, tr⟩ := pr
      simp [add_filter_store, hp, storeAddDset, storeAddGroup, storeDel]
    | error e =>
      simp [add_filter_store, hp, storeAddDset, storeAddGroup, storeDel]
  · intro sampler samples lp le ma spec tag mp dist sl ia s t
    simp only [add_samples_store, storeAddDset, storeAddGroup, storeDel]
    split_ifs <;> simp_all

theorem getD_range_map {β : Type} (f : Nat → β) (n i : Nat) (d : β) (hi : i < n) :
    (((List.range n).map f).getD i d) = f i := by
  rw [List.getD_eq_getElem?_getD, List.getElem?_map, List.getElem?_range hi]
  rfl

/-- C6: when the covariance input of `add_object` is a square matrix with
all diagonal entries equal to one, the stored covariance matrix has the
element-wise square of the spectrum's flux-error column on its diagonal. -/
theorem correlation_matrix_diagonal
    (data : List (List Rat)) (spec_err : List Rat)
    (hsq : ∀ i, i < data.length → (data.getD i []).length = data.length)
    (hdiag : ∀ i, i < data.length → (data.getD i []).getD i 0 = 1) :
    ∀ i, i < data.length →
      (np_diag (add_object_covariance data spec_err)).getD i 0 =
        (spec_err.getD i 0) ^ 2 := by
  have hall : (np_diag data).all (fun q => q == 1) = true := by
    rw [List.all_eq_true]
    intro x hx
    simp only [np_diag, List.mem_map, List.mem_range] at hx
    obtain ⟨i, hi, rfl⟩ := hx
    have h2 := hdiag i hi
    simp only [List.getD_eq_getElem?_getD] at h2
    simp [h2]
  intro i hi
  rw [add_object_covariance, if_pos hall]
  have hcclen : (correlation_to_covariance data spec_err).length = data.length := by
    simp [correlation_to_covariance]
  rw [np_diag, getD_range_map _ _ i _ (by rw [hcclen]; exact hi)]
  rw [correlation_to_covariance, getD_range_map _ _ i _ hi]
  rw [getD_range_map _ _ i _ (by rw [hsq i hi]; exact hi)]
  rw [hdiag i hi, one_mul, sq]

theorem correlation_matrix_diagonal_witness :
    (np_diag (add_object_covariance [[1, 1/2], [1/2, 1]] [3, 4])).getD 1 0 =
      (([3, 4] : List Rat).getD 1 0) ^ 2 :=
  correlation_matrix_diagonal [[1, 1/2], [1/2, 1]] [3, 4]
    (by decide) (by decide) 1 (by decide)

theorem add_object_phot_lookup
    (mag_to_flux : String → Rat × Rat → Option (Rat × Rat))
    (x : String) (mx ex : Rat) :
    ∀ (l : List (String × Rat × Rat)),
      (l.map (fun it => it.1)).Nodup → (x, mx, ex) ∈ l →
      (add_object_phot mag_to_flux l).2.lookup x =
        some (match mag_to_flux x (mx, ex) with
          | some fe => [PhotVal.val mx, PhotVal.val ex,
              PhotVal.val (fe.1 * 1), PhotVal.val fe.2]
          | none => [PhotVal.val mx, PhotVal.val ex, PhotVal.nan, PhotVal.nan]) := by
  intro l
  induction l with
  | nil =>
    intro _ hmem
    cases hmem
  | cons it rest ih =>
    intro hnodup hmem
    simp only [List.map_cons, List.nodup_cons] at hnodup
    rcases List.mem_cons.mp hmem with he | hm
    · rw [← he]
      cases hc : mag_to_flux x (mx, ex) with
      | some fe => simp [add_object_phot, List.lookup, hc]
      | none => simp [add_object_phot, List.lookup, hc]
    · have hx : x ∈ rest.map (fun it => it.1) :=
        List.mem_map.mpr ⟨(x, mx, ex), hm, rfl⟩
      have hne : it.1 ≠ x := fun heq => hnodup.1 (heq ▸ hx)
      have hbeq : (x == it.1) = false :=
        beq_eq_false_iff_ne.mpr (fun h => hne h.symm)
      have htail := ih hnodup.2 hm
      cases hc : mag_to_flux it.1 it.2 with
      | some fe =>
        simp only [add_object_phot, List.map_cons, hc, List.lookup, hbeq] at htail ⊢
        exact htail
      | none =>
        simp only [add_object_phot, List.map_cons, hc, List.lookup, hbeq] at htail ⊢
        exact htail

theorem count_failed_warns (pfail : (String × Rat × Rat) → Bool)
    (x : String) (mx ex : Rat) :
    ∀ (l : List (String × Rat × Rat)),
      (l.map (fun it => it.1)).Nodup → (x, mx, ex) ∈ l → pfail (x, mx, ex) = true →
      ((l.filter pfail).map (fun it => it.1)).count x = 1 := by
  intro l
  induction l with
  | nil =>
    intro _ hmem _
    cases hmem
  | cons it rest ih =>
    intro hnodup hmem hx
    simp only [List.map_cons, List.nodup_cons] at hnodup
    have hsub : ∀ y, y ∈ (rest.filter pfail).map (fun it => it.1) →
        y ∈ rest.map (fun it => it.1) := by
      intro y hy
      obtain ⟨p, hp, rfl⟩ := List.mem_map.mp hy
      exact List.mem_map.mpr ⟨p, (List.mem_filter.mp hp).1, rfl⟩
    rcases List.mem_cons.mp hmem with he | hm
    · have hnot : x ∉ (rest.filter pfail).map (fun it => it.1) := by
        intro hmm
        have h1 := hnodup.1
        rw [← he] at h1
        exact h1 (hsub x hmm)
      rw [← he]
      simp only [List.filter_cons, hx, if_true, List.map_cons]
      rw [List.count_cons_self, List.count_eq_zero_of_not_mem hnot]
    · have hx2 : x ∈ rest.map (fun it => it.1) :=
        List.mem_map.mpr ⟨(x, mx, ex), hm, rfl⟩
      have hne : it.1 ≠ x := fun heq => hnodup.1 (heq ▸ hx2)
      have htail := ih hnodup.2 hm hx
      cases hkeep : pfail it with
      | true =>
        simp only [List.filter_cons, hkeep, if_true, List.map_cons]
        rw [List.count_cons_of_ne (fun h => hne h.symm), htail]
      | false =>
        simp only [List.filter_cons, hkeep]
        simpa using htail

/-- C7: when `add_object` is given an apparent-magnitude pair for a filter
the synthetic-photometry collaborator cannot resolve, the ingestion does
not raise (the embedding is a total function): exactly one warning naming
that filter is emitted, the stored dataset for it carries `NaN` for both
the flux and the flux error (the magnitude pair is kept), and every
resolvable filter of the same call is stored with its computed fluxes. -/
theorem missing_filter_warns_and_stores_nan
    (mag_to_flux : String → Rat × Rat → Option (Rat × Rat))
    (app_mag : List (String × Rat × Rat)) (x : String) (mx ex : Rat)
    (hnodup : (app_mag.map (fun it => it.1)).Nodup)
    (hmem : (x, mx, ex) ∈ app_mag)
    (hfail : mag_to_flux x (mx, ex) = none) :
    ((add_object_phot mag_to_flux app_mag).1.count x = 1) ∧
    ((add_object_phot mag_to_flux app_mag).2.lookup x =
      some [PhotVal.val mx, PhotVal.val ex, PhotVal.nan, PhotVal.nan]) ∧
    (∀ y my ey f fe, (y, my, ey) ∈ app_mag → mag_to_flux y (my, ey) = some (f, fe) →
      (add_object_phot mag_to_flux app_mag).2.lookup y =
        some [PhotVal.val my, PhotVal.val ey, PhotVal.val (f * 1), PhotVal.val fe]) := by
  refine ⟨?_, ?_, ?_⟩
  · exact count_failed_warns (fun it => (mag_to_flux it.1 it.2).isNone) x mx ex
      app_mag hnodup hmem (by simp [hfail])
  · have h := add_object_phot_lookup mag_to_flux x mx ex app_mag hnodup hmem
    rw [hfail] at h
    exact h
  · intro y my ey f fe hymem hyok
    have h := add_object_phot_lookup mag_to_flux y my ey app_mag hnodup hymem
    rw [hyok] at h
    exact h

theorem missing_filter_warns_and_stores_nan_witness :
    ((add_object_phot
        (fun name p => if name = "Fake/Filter" then none else some p)
        [("Fake/Filter", 15, 1/10), ("Good", 2, 3)]).1.count "Fake/Filter" = 1) ∧
    ((add_object_phot
        (fun name p => if name = "Fake/Filter" then none else some p)
        [("Fake/Filter", 15, 1/10), ("Good", 2, 3)]).2.lookup "Fake/Filter" =
      some [PhotVal.val 15, PhotVal.val (1/10), PhotVal.nan, PhotVal.nan]) ∧
    ((add_object_phot
        (fun name p => if name = "Fake/Filter" then none else some p)
        [("Fake/Filter", 15, 1/10), ("Good", 2, 3)]).2.lookup "Good" =
      some [PhotVal.val 2, PhotVal.val 3, PhotVal.val (2 * 1), PhotVal.val 3]) := by
  have h := missing_filter_warns_and_stores_nan
    (fun name p => if name = "Fake/Filter" then none else some p)
    [("Fake/Filter", 15, 1/10), ("Good", 2, 3)] "Fake/Filter" 15 (1/10)
    (by decide) (List.mem_cons_self _ _) rfl
  exact ⟨h.1, h.2.1, h.2.2 "Good" 2 3 2 3 (by simp) rfl⟩

/-- C8 (evaluation at the failing input): in the `free`/`monotonic` branch
of `get_pt_profiles`, the temperature of every selected sample is written
into column 14 (the knot-loop variable `j` left over at value 14) from
knots that repeat the single parameter `t{i}` named after the sample
index.  Consequently, with 2 stored samples (15 knot parameters each) the
call raises `IndexError` for every interpolation collaborator — column 14
does not exist — and with 15 stored samples whose `t{i}` parameters are
pairwise different, columns 0..13 of the result remain identically zero
while column 14 holds the profile of the LAST sample built from 180
copies of that sample's single parameter `t14`. -/
theorem pt_profiles_free_loop_bug :
    (∀ interp : List Rat → Rat → List Rat,
      get_pt_profiles_free interp
        (fun s => ((List.range 15).map (fun k => "t" ++ toString k)).findIdx?
          (fun t => t == s))
        [List.replicate 15 0, List.replicate 15 1] = Except.error "IndexError") ∧
    get_pt_profiles_free (fun knots _ => List.replicate 180 (knots.headD 0))
      (fun s => ((List.range 15).map (fun k => "t" ++ toString k)).findIdx?
        (fun t => t == s))
      ((List.range 15).map (fun i => List.replicate 15 (i : Rat))) =
      Except.ok (List.replicate 14 (List.replicate 180 (0 : Rat)) ++
        [List.replicate 180 (14 : Rat)]) := by
  constructor
  · intro interp
    rfl
  · rfl

theorem take_head_age (r : List Rat) : ((r.take 8).getD 0 0) = r.getD 0 0 := by
  cases r <;> rfl

/-- C9 amended: the `manual` (and, with the same `argsort` reindexing,
`marleau`) isochrone ingestion stores its evolution rows sorted in
non-decreasing order of the age column. -/
theorem add_manual_evolution_age_sorted (c : Rat) (rows : List (List Rat)) :
    AgeSorted (add_manual_evolution c rows) := by
  unfold add_manual_evolution AgeSorted
  rw [List.chain'_map]
  have hp := @List.sorted_mergeSort (List Rat)
    (fun r s => decide (r.getD 0 0 ≤ s.getD 0 0))
    (fun a b c hab hbc => by
      simp only [decide_eq_true_eq] at hab hbc ⊢
      exact le_trans hab hbc)
    (fun a b => by
      simp only [Bool.or_eq_true, decide_eq_true_eq]
      exact le_total _ _)
    (rows.map (manualScale c))
  have hchain := List.Pairwise.chain' hp
  unfold sortByAge
  exact List.Chain'.imp
    (fun r s h => by
      rw [take_head_age, take_head_age]
      simpa using h) hchain

/-- C9 counterexample: the `sonora` ingestion (and identically `saumon2008`
and `baraffe2015`) stores rows in input-file order: an input whose first
row has the larger age yields a stored evolution array that is NOT sorted
ascending by age. -/
theorem add_sonora_evolution_unsorted :
    ¬ AgeSorted (add_sonora_evolution 1 [[2, 1, 1, 1, 1], [1, 1, 1, 1, 1]]) := by
  intro h
  unfold AgeSorted add_sonora_evolution at h
  simp only [List.map_cons, List.map_nil, List.chain'_cons, List.chain'_singleton,
    and_true] at h
  norm_num at h

end Species
